import Mathlib

/-!
Shallow embedding of `src/server.py`, a FastAPI actuator controller for a
wheeled robot.  The hardware surface (RPi GPIO direction bits, PWM duty
cycles, the spray relay) is modelled as a record `GPIOState`; each command
handler is translated into a pure function producing the list of hardware
writes and sleeps it performs (`HWEvent`) together with its return value.
Durations and duty cycles are real numbers; Python `time.sleep` raising
`ValueError` on a negative argument is modelled by the error branch taken
when the computed duration is negative.  Exceptions caught by the blanket
`except` blocks and converted to error strings are modelled by dedicated
error constructors in each handler result type.
-/

set_option linter.unusedVariables false

noncomputable section

/-- State of the output lines driven by `server.py`.  `dir1`/`dir2` are the
motor direction bits (`true` = HIGH); the four `*Duty` fields are the PWM
duty cycles; `relay` is the spray relay line (`true` = HIGH = relay OFF /
de-energized, per the comments at lines 45 and 145-147 of the source);
the `*Active` flags record whether each PWM object is running
(`pwm.start` / `pwm.stop`), and `gpioCleaned` records whether
`GPIO.cleanup()` has released the lines. -/
structure GPIOState where
  dir1 : Bool
  dir2 : Bool
  pwm1Duty : ℝ
  pwm2Duty : ℝ
  cameraServoDuty : ℝ
  sprayServoDuty : ℝ
  relay : Bool
  pwm1Active : Bool
  pwm2Active : Bool
  cameraServoActive : Bool
  sprayServoActive : Bool
  gpioCleaned : Bool

/-- One observable hardware action performed by a handler: a write to an
output line, a blocking sleep, stopping a PWM object, or the final
`GPIO.cleanup()`. -/
inductive HWEvent where
  | setDir1 (level : Bool)
  | setDir2 (level : Bool)
  | setPwm1 (duty : ℝ)
  | setPwm2 (duty : ℝ)
  | setCameraServo (duty : ℝ)
  | setSprayServo (duty : ℝ)
  | setRelay (level : Bool)
  | sleep (seconds : ℝ)
  | stopPwm1
  | stopPwm2
  | stopCameraServo
  | stopSprayServo
  | gpioCleanup

/-- Effect of a single hardware event on the output-line state.  Stopping a
PWM drops its output to the quiescent level (duty 0) and marks it inactive;
`GPIO.cleanup()` releases the lines. -/
def applyEvent (s : GPIOState) : HWEvent → GPIOState
  | .setDir1 b => { s with dir1 := b }
  | .setDir2 b => { s with dir2 := b }
  | .setPwm1 d => { s with pwm1Duty := d }
  | .setPwm2 d => { s with pwm2Duty := d }
  | .setCameraServo d => { s with cameraServoDuty := d }
  | .setSprayServo d => { s with sprayServoDuty := d }
  | .setRelay b => { s with relay := b }
  | .sleep _ => s
  | .stopPwm1 => { s with pwm1Duty := 0, pwm1Active := false }
  | .stopPwm2 => { s with pwm2Duty := 0, pwm2Active := false }
  | .stopCameraServo => { s with cameraServoDuty := 0, cameraServoActive := false }
  | .stopSprayServo => { s with sprayServoDuty := 0, sprayServoActive := false }
  | .gpioCleanup => { s with gpioCleaned := true }

/-- Run a trace of hardware events from a starting state. -/
def runEvents (s : GPIOState) (evs : List HWEvent) : GPIOState :=
  evs.foldl applyEvent s

/-- Output-line state right after the startup block (lines 41-58 of the
source): direction bits LOW, relay HIGH (spray OFF), all four PWMs started
at duty 0. -/
def initState : GPIOState where
  dir1 := false
  dir2 := false
  pwm1Duty := 0
  pwm2Duty := 0
  cameraServoDuty := 0
  sprayServoDuty := 0
  relay := true
  pwm1Active := true
  pwm2Active := true
  cameraServoActive := true
  sprayServoActive := true
  gpioCleaned := false

/-- `WHEEL_DIAMETER = 0.15` (line 32). -/
def WHEEL_DIAMETER : ℝ := 0.15

/-- `MAX_RPM = 50` (line 33). -/
def MAX_RPM : ℝ := 50

/-- The `SERVO_ANGLES` dict (lines 34-38), as a lookup returning the angle
in degrees. -/
def SERVO_ANGLES (key : String) : Option ℕ :=
  if key = "left" then some 60
  else if key = "right" then some 120
  else if key = "straight" then some 90
  else none

/-- Pydantic `MotorParams` validation (lines 61-63): `speed` is constrained
to `[0, 100]`; `distance` carries no constraint. -/
def MotorParams_accepts (distance : ℝ) (speed : ℤ) : Prop :=
  0 ≤ speed ∧ speed ≤ 100

/-- Result of `move_motor`: the `"Invalid direction"` early return, the
success f-string (which reports the possibly halved speed), or the
`"Error: ..."` string produced when `time.sleep` raises on a negative
duration. -/
inductive MoveResult where
  | invalidDirection
  | moved (direction : String) (distance : ℝ) (speed : ℤ)
  | sleepError

/-- Movement-time computation of `move_motor` (lines 96-103): zero when the
(possibly halved) speed is `≤ 0`, otherwise
`distance / (π · WHEEL_DIAMETER · (MAX_RPM · speed/100) / 60)`. -/
def compute_time (distance : ℝ) (speed : ℤ) : ℝ :=
  if speed ≤ 0 then 0
  else
    let circumference := Real.pi * WHEEL_DIAMETER
    let rpm := MAX_RPM * ((speed : ℝ) / 100)
    let rps := rpm / 60
    let linear_speed := circumference * rps
    distance / linear_speed

/-- Shared tail of `move_motor` after the direction dispatch (lines 92-112):
write the duty cycles, compute the sleep time, sleep, and restore the duty
cycles to 0.  A negative computed time makes `time.sleep` raise; the
`except` clause returns the error string, skipping the restoring writes. -/
def motor_run (dirEvs : List HWEvent) (direction : String) (distance : ℝ)
    (speed : ℤ) : List HWEvent × MoveResult :=
  let evs := dirEvs ++ [.setPwm1 (speed : ℝ), .setPwm2 (speed : ℝ)]
  let time_needed := compute_time distance speed
  if time_needed < 0 then
    (evs, .sleepError)
  else
    (evs ++ [.sleep time_needed, .setPwm1 0, .setPwm2 0],
     .moved direction distance speed)

/-- `move_motor` (lines 72-112): direction dispatch writes the two
direction bits per the fixed truth table and halves the speed (integer
floor division `// 2`) for the two turning directions; an unknown direction
returns before any hardware write. -/
def move_motor (direction : String) (distance : ℝ) (speed : ℤ) :
    List HWEvent × MoveResult :=
  if direction = "forward" then
    motor_run [.setDir1 false, .setDir2 false] direction distance speed
  else if direction = "backward" then
    motor_run [.setDir1 true, .setDir2 true] direction distance speed
  else if direction = "left" then
    motor_run [.setDir1 true, .setDir2 false] direction distance (Int.fdiv speed 2)
  else if direction = "right" then
    motor_run [.setDir1 false, .setDir2 true] direction distance (Int.fdiv speed 2)
  else
    ([], .invalidDirection)

/-- The duty cycle `move_motor` applies to both motors for a valid
direction: the requested speed, halved by flooring integer division for the
two turning directions. -/
def appliedSpeed (direction : String) (speed : ℤ) : ℤ :=
  if direction = "left" ∨ direction = "right" then Int.fdiv speed 2 else speed

/-- The direction-bit truth table of `move_motor` (lines 75-88), as the
pair `(DIR1, DIR2)` written for each valid direction. -/
def dirBits (direction : String) : Bool × Bool :=
  if direction = "forward" then (false, false)
  else if direction = "backward" then (true, true)
  else if direction = "left" then (true, false)
  else (false, true)

/-- Python `str.lower()` applied to a direction string: lower-case every
character. -/
def py_lower (s : String) : String :=
  String.mk (s.data.map Char.toLower)

/-- Result of `rotate_camera`: the invalid-direction error string or the
success string reporting direction and angle. -/
inductive CameraResult where
  | invalid (direction : String)
  | rotated (direction : String) (angle : ℕ)

/-- `rotate_camera` (lines 115-128): look the lower-cased direction up in
`SERVO_ANGLES`; on a miss return the error string with no hardware write;
otherwise apply `duty = 2.5 + angle/18`, hold 0.5 s, release to 0. -/
def rotate_camera (direction : String) : List HWEvent × CameraResult :=
  match SERVO_ANGLES (py_lower direction) with
  | none => ([], .invalid direction)
  | some angle =>
      let duty : ℝ := 2.5 + (angle : ℝ) / 18
      ([.setCameraServo duty, .sleep 0.5, .setCameraServo 0],
       .rotated direction angle)

/-- Result of `adjust_spray_angle`. -/
inductive SprayAngleResult where
  | rotated (angle : ℝ)

/-- `adjust_spray_angle` (lines 131-140): same duty formula and
settle/release pattern as the camera, on the spray servo line. -/
def adjust_spray_angle (angle : ℝ) : List HWEvent × SprayAngleResult :=
  let duty : ℝ := 2.5 + angle / 18
  ([.setSprayServo duty, .sleep 0.5, .setSprayServo 0], .rotated angle)

/-- Result of `activate_spray`: the success string reporting the duration,
or the `"Spray activation error: ..."` string produced when `time.sleep`
raises on a negative duration. -/
inductive SprayResult where
  | activated (duration : ℝ)
  | sprayError

/-- `activate_spray` (lines 142-150): relay LOW (spray ON), sleep for
`duration`, relay HIGH (spray OFF).  A negative duration makes `time.sleep`
raise; the `except` clause returns the error string, skipping the
de-energizing write. -/
def activate_spray (duration : ℝ) : List HWEvent × SprayResult :=
  let evs : List HWEvent := [.setRelay false]
  if duration < 0 then
    (evs, .sprayError)
  else
    (evs ++ [.sleep duration, .setRelay true], .activated duration)

/-- The `/activate_spray` endpoint (lines 192-195): the raw float query
parameter is passed to `activate_spray` with no bound enforced. -/
def spray_activate (duration : ℝ) : List HWEvent × SprayResult :=
  activate_spray duration

/-- The `/stop` endpoint (lines 173-178): zero both motor duty cycles and
answer `"Motor stopped"`. -/
def stop_motor : List HWEvent × String :=
  ([.setPwm1 0, .setPwm2 0], "Motor stopped")

/-- The shutdown hook `cleanup` (lines 197-205): stop all four PWMs, force
the relay HIGH (spray off), release the lines with `GPIO.cleanup()`. -/
def cleanup : List HWEvent :=
  [.stopPwm1, .stopPwm2, .stopCameraServo, .stopSprayServo,
   .setRelay true, .gpioCleanup]

/-! ### Helper lemmas -/

theorem compute_time_nonneg (distance : ℝ) (speed : ℤ) (hd : 0 ≤ distance) :
    0 ≤ compute_time distance speed := by
  unfold compute_time
  split
  · exact le_refl 0
  · rename_i h
    dsimp only
    have hs : (0 : ℝ) < (speed : ℝ) := by exact_mod_cast lt_of_not_le h
    have hpi := Real.pi_pos
    unfold WHEEL_DIAMETER MAX_RPM
    positivity

theorem compute_time_neg (distance : ℝ) (speed : ℤ) (hs : 0 < speed)
    (hd : distance < 0) : compute_time distance speed < 0 := by
  unfold compute_time
  rw [if_neg (not_le.mpr hs)]
  dsimp only
  have hs' : (0 : ℝ) < (speed : ℝ) := by exact_mod_cast hs
  have hpi := Real.pi_pos
  unfold WHEEL_DIAMETER MAX_RPM
  apply div_neg_of_neg_of_pos hd
  positivity

theorem compute_time_formula (distance : ℝ) (speed : ℤ) (hs : 0 ≤ speed) :
    compute_time distance speed =
      distance / (Real.pi * 0.15 * (50 * (speed : ℝ) / 100) / 60) := by
  unfold compute_time
  split
  · rename_i h
    have h0 : speed = 0 := le_antisymm h hs
    subst h0
    norm_num
  · dsimp only
    unfold WHEEL_DIAMETER MAX_RPM
    rw [show Real.pi * 0.15 * ((50 : ℝ) * ((speed : ℝ) / 100) / 60)
        = Real.pi * 0.15 * (50 * (speed : ℝ) / 100) / 60 by ring]

theorem motor_run_of_nonneg (dirEvs : List HWEvent) (direction : String)
    (distance : ℝ) (speed : ℤ) (h : 0 ≤ compute_time distance speed) :
    motor_run dirEvs direction distance speed =
      (dirEvs ++ [.setPwm1 (speed : ℝ), .setPwm2 (speed : ℝ),
        .sleep (compute_time distance speed), .setPwm1 0, .setPwm2 0],
       .moved direction distance speed) := by
  unfold motor_run
  rw [if_neg (not_lt.mpr h)]
  simp

theorem motor_run_of_neg (dirEvs : List HWEvent) (direction : String)
    (distance : ℝ) (speed : ℤ) (h : compute_time distance speed < 0) :
    motor_run dirEvs direction distance speed =
      (dirEvs ++ [.setPwm1 (speed : ℝ), .setPwm2 (speed : ℝ)], .sleepError) := by
  unfold motor_run
  rw [if_pos h]

theorem appliedSpeed_nonneg (direction : String) (speed : ℤ)
    (hs : 0 ≤ speed) : 0 ≤ appliedSpeed direction speed := by
  unfold appliedSpeed
  split
  · exact Int.fdiv_nonneg hs (by norm_num)
  · exact hs

theorem fdiv_two_le_half (speed : ℤ) :
    ((Int.fdiv speed 2 : ℤ) : ℝ) ≤ (speed : ℝ) / 2 := by
  have h : 2 * Int.fdiv speed 2 ≤ speed := by
    rw [Int.fdiv_eq_ediv _ (by norm_num)]
    omega
  have h' : (2 : ℝ) * ((Int.fdiv speed 2 : ℤ) : ℝ) ≤ (speed : ℝ) := by
    exact_mod_cast h
  linarith

theorem move_motor_forward (distance : ℝ) (speed : ℤ) :
    move_motor "forward" distance speed =
      motor_run [.setDir1 false, .setDir2 false] "forward" distance speed := rfl

theorem move_motor_backward (distance : ℝ) (speed : ℤ) :
    move_motor "backward" distance speed =
      motor_run [.setDir1 true, .setDir2 true] "backward" distance speed := rfl

theorem move_motor_left (distance : ℝ) (speed : ℤ) :
    move_motor "left" distance speed =
      motor_run [.setDir1 true, .setDir2 false] "left" distance
        (Int.fdiv speed 2) := rfl

theorem move_motor_right (distance : ℝ) (speed : ℤ) :
    move_motor "right" distance speed =
      motor_run [.setDir1 false, .setDir2 true] "right" distance
        (Int.fdiv speed 2) := rfl

theorem delay_example_bound :
    |(0.5 : ℝ) / (Real.pi * 0.15 * (50 * (50 : ℝ) / 100) / 60) - 2.546|
      < 0.001 := by
  have hpos := Real.pi_pos
  have h8 : (0.5 : ℝ) / (Real.pi * 0.15 * (50 * (50 : ℝ) / 100) / 60)
      = 8 / Real.pi := by
    rw [div_eq_div_iff (by positivity) Real.pi_ne_zero]
    ring
  rw [h8, abs_sub_lt_iff]
  have hlo := Real.pi_gt_d4
  have hhi := Real.pi_lt_d4
  constructor
  · have h1 : (8 : ℝ) / Real.pi < 8 / 3.1415 :=
      div_lt_div_of_pos_left (by norm_num) (by norm_num) hlo
    nlinarith
  · have h2 : (8 : ℝ) / 3.1416 < 8 / Real.pi :=
      div_lt_div_of_pos_left (by norm_num) hpos hhi
    nlinarith

/-! ### Claim theorems -/

/-- C5: a direction whose lower-case form is none of `left`, `right`,
`straight` makes `rotate_camera` return the invalid-direction error with an
empty hardware trace, so every output line is unchanged. -/
theorem aim_camera_invalid_no_write (direction : String)
    (h1 : py_lower direction ≠ "left")
    (h2 : py_lower direction ≠ "right")
    (h3 : py_lower direction ≠ "straight") :
    rotate_camera direction = ([], .invalid direction) ∧
    ∀ s : GPIOState, runEvents s (rotate_camera direction).1 = s := by
  have hnone : SERVO_ANGLES (py_lower direction) = none := by
    unfold SERVO_ANGLES
    rw [if_neg h1, if_neg h2, if_neg h3]
  unfold rotate_camera
  rw [hnone]
  exact ⟨rfl, fun s => rfl⟩

/-- C5 witness: `AimCamera "up"` errors and writes nothing. -/
theorem aim_camera_invalid_no_write_witness :
    rotate_camera "up" = ([], .invalid "up") ∧
    runEvents initState (rotate_camera "up").1 = initState := by
  have h := aim_camera_invalid_no_write "up" (by decide) (by decide) (by decide)
  exact ⟨h.1, h.2 initState⟩

/-- C6: `Stop()` zeroes both motor duty cycles, sleeps never, changes no
other output line, and answers `"Motor stopped"`; from any prior state the
resulting motor duty cycles read 0. -/
theorem stop_motor_spec (s : GPIOState) :
    runEvents s stop_motor.1 = { s with pwm1Duty := 0, pwm2Duty := 0 } ∧
    (runEvents s stop_motor.1).pwm1Duty = 0 ∧
    (runEvents s stop_motor.1).pwm2Duty = 0 ∧
    stop_motor.2 = "Motor stopped" ∧
    ∀ t : ℝ, HWEvent.sleep t ∉ stop_motor.1 := by
  refine ⟨rfl, rfl, rfl, rfl, ?_⟩
  intro t
  simp [stop_motor]

/-- C7: for a non-negative duration, `activate_spray` energizes the relay
(LOW), sleeps exactly the requested duration, then de-energizes it (HIGH);
the relay ends de-energized from any starting state, and the result reports
the duration. -/
theorem fire_spray_timing (duration : ℝ) (h : 0 ≤ duration) :
    activate_spray duration =
      ([.setRelay false, .sleep duration, .setRelay true],
       .activated duration) ∧
    ∀ s : GPIOState, (runEvents s (activate_spray duration).1).relay = true := by
  have heq : activate_spray duration =
      ([.setRelay false, .sleep duration, .setRelay true],
       .activated duration) := by
    unfold activate_spray
    rw [if_neg (not_lt.mpr h)]
    rfl
  refine ⟨heq, fun s => ?_⟩
  rw [heq]
  rfl

/-- C7 witness: `FireSpray(duration=2.0)`. -/
theorem fire_spray_timing_witness :
    activate_spray 2 =
      ([.setRelay false, .sleep 2, .setRelay true], .activated 2) ∧
    (runEvents initState (activate_spray 2).1).relay = true := by
  have h := fire_spray_timing 2 (by norm_num)
  exact ⟨h.1, h.2 initState⟩

/-- C8: the shutdown hook, run from any output-line state whatsoever,
leaves the relay HIGH (de-energized), all four PWM duty cycles at 0, all
four PWM objects stopped, and the lines released. -/
theorem cleanup_always_safe (s : GPIOState) :
    (runEvents s cleanup).relay = true ∧
    (runEvents s cleanup).pwm1Duty = 0 ∧
    (runEvents s cleanup).pwm2Duty = 0 ∧
    (runEvents s cleanup).cameraServoDuty = 0 ∧
    (runEvents s cleanup).sprayServoDuty = 0 ∧
    (runEvents s cleanup).pwm1Active = false ∧
    (runEvents s cleanup).pwm2Active = false ∧
    (runEvents s cleanup).cameraServoActive = false ∧
    (runEvents s cleanup).sprayServoActive = false ∧
    (runEvents s cleanup).gpioCleaned = true :=
  ⟨rfl, rfl, rfl, rfl, rfl, rfl, rfl, rfl, rfl, rfl⟩

/-- C10: a negative duration energizes the relay, then the sleep raises and
the caught exception returns the error result with the de-energizing write
skipped, so the relay is left energized (LOW) from any starting state; the
endpoint passes the raw duration through unchecked. -/
theorem fire_spray_negative_leaves_relay_on (duration : ℝ)
    (h : duration < 0) :
    spray_activate duration = ([.setRelay false], .sprayError) ∧
    ∀ s : GPIOState, (runEvents s (spray_activate duration).1).relay = false := by
  have heq : spray_activate duration = ([.setRelay false], .sprayError) := by
    unfold spray_activate activate_spray
    rw [if_pos h]
  refine ⟨heq, fun s => ?_⟩
  rw [heq]
  rfl

/-- C10 witness: `FireSpray(duration=-1)` leaves the relay energized. -/
theorem fire_spray_negative_leaves_relay_on_witness :
    spray_activate (-1) = ([.setRelay false], .sprayError) ∧
    (runEvents initState (spray_activate (-1)).1).relay = false := by
  have h := fire_spray_negative_leaves_relay_on (-1) (by norm_num)
  exact ⟨h.1, h.2 initState⟩

/-- C1: for a valid direction, speed in `(0,100]` and non-negative
distance, `move_motor` applies the (possibly halved) duty cycle to both
motors, blocks for exactly
`distance / (π · 0.15 · (50 · applied/100) / 60)`, then zeroes both duty
cycles; at `Drive(forward, 0.5, 50)` the applied duty cycle is 50 and the
delay is within 0.001 of 2.546 seconds. -/
theorem drive_delay_formula (direction : String) (distance : ℝ) (speed : ℤ)
    (hdir : direction = "forward" ∨ direction = "backward" ∨
      direction = "left" ∨ direction = "right")
    (hs0 : 0 < speed) (hs1 : speed ≤ 100) (hd : 0 ≤ distance) :
    move_motor direction distance speed =
      ([.setDir1 (dirBits direction).1, .setDir2 (dirBits direction).2,
        .setPwm1 ((appliedSpeed direction speed : ℤ) : ℝ),
        .setPwm2 ((appliedSpeed direction speed : ℤ) : ℝ),
        .sleep (distance /
          (Real.pi * 0.15 *
            (50 * ((appliedSpeed direction speed : ℤ) : ℝ) / 100) / 60)),
        .setPwm1 0, .setPwm2 0],
       .moved direction distance (appliedSpeed direction speed)) ∧
    (direction = "forward" → distance = 0.5 → speed = 50 →
      ((appliedSpeed direction speed : ℤ) : ℝ) = 50 ∧
      |distance /
          (Real.pi * 0.15 *
            (50 * ((appliedSpeed direction speed : ℤ) : ℝ) / 100) / 60)
        - 2.546| < 0.001) := by
  constructor
  · rcases hdir with h | h | h | h <;> subst h
    · rw [move_motor_forward,
        motor_run_of_nonneg _ _ _ _ (compute_time_nonneg _ _ hd),
        compute_time_formula _ _ (le_of_lt hs0)]
      simp [appliedSpeed, dirBits]
    · rw [move_motor_backward,
        motor_run_of_nonneg _ _ _ _ (compute_time_nonneg _ _ hd),
        compute_time_formula _ _ (le_of_lt hs0)]
      simp [appliedSpeed, dirBits]
    · rw [move_motor_left,
        motor_run_of_nonneg _ _ _ _ (compute_time_nonneg _ _ hd),
        compute_time_formula _ _ (Int.fdiv_nonneg (le_of_lt hs0) (by norm_num))]
      simp [appliedSpeed, dirBits]
    · rw [move_motor_right,
        motor_run_of_nonneg _ _ _ _ (compute_time_nonneg _ _ hd),
        compute_time_formula _ _ (Int.fdiv_nonneg (le_of_lt hs0) (by norm_num))]
      simp [appliedSpeed, dirBits]
  · intro hf hdist hsp
    subst hf
    subst hdist
    subst hsp
    have ha0 : appliedSpeed "forward" 50 = 50 := rfl
    have ha : ((appliedSpeed "forward" 50 : ℤ) : ℝ) = 50 := by
      rw [ha0]
      norm_num
    rw [ha]
    exact ⟨rfl, delay_example_bound⟩

/-- C1 witness: `Drive(forward, distance=0.5, speed=50)`. -/
theorem drive_delay_formula_witness :
    move_motor "forward" 0.5 50 =
      ([.setDir1 (dirBits "forward").1, .setDir2 (dirBits "forward").2,
        .setPwm1 ((appliedSpeed "forward" 50 : ℤ) : ℝ),
        .setPwm2 ((appliedSpeed "forward" 50 : ℤ) : ℝ),
        .sleep ((0.5 : ℝ) /
          (Real.pi * 0.15 *
            (50 * ((appliedSpeed "forward" 50 : ℤ) : ℝ) / 100) / 60)),
        .setPwm1 0, .setPwm2 0],
       .moved "forward" 0.5 (appliedSpeed "forward" 50)) ∧
    ((appliedSpeed "forward" 50 : ℤ) : ℝ) = 50 ∧
    |(0.5 : ℝ) /
        (Real.pi * 0.15 *
          (50 * ((appliedSpeed "forward" 50 : ℤ) : ℝ) / 100) / 60)
      - 2.546| < 0.001 := by
  have h := drive_delay_formula "forward" 0.5 50 (Or.inl rfl) (by decide)
    (by decide) (by norm_num)
  exact ⟨h.1, (h.2 rfl rfl rfl).1, (h.2 rfl rfl rfl).2⟩

/-- C2: for a valid direction, speed in `[0,100]` and non-negative
distance, the computed delay is non-negative (and a real number, hence
finite); it is exactly 0 whenever the applied speed is `≤ 0`, the
division being guarded; and the delay slept in the trace is exactly that
computed delay. -/
theorem drive_delay_nonneg (direction : String) (distance : ℝ) (speed : ℤ)
    (hdir : direction = "forward" ∨ direction = "backward" ∨
      direction = "left" ∨ direction = "right")
    (hs0 : 0 ≤ speed) (hs1 : speed ≤ 100) (hd : 0 ≤ distance) :
    0 ≤ compute_time distance (appliedSpeed direction speed) ∧
    (appliedSpeed direction speed ≤ 0 →
      compute_time distance (appliedSpeed direction speed) = 0) ∧
    (move_motor direction distance speed).1 =
      [.setDir1 (dirBits direction).1, .setDir2 (dirBits direction).2,
       .setPwm1 ((appliedSpeed direction speed : ℤ) : ℝ),
       .setPwm2 ((appliedSpeed direction speed : ℤ) : ℝ),
       .sleep (compute_time distance (appliedSpeed direction speed)),
       .setPwm1 0, .setPwm2 0] := by
  refine ⟨compute_time_nonneg _ _ hd, ?_, ?_⟩
  · intro h
    unfold compute_time
    rw [if_pos h]
  · rcases hdir with h | h | h | h <;> subst h
    · rw [move_motor_forward,
        motor_run_of_nonneg _ _ _ _ (compute_time_nonneg _ _ hd)]
      simp [appliedSpeed, dirBits]
    · rw [move_motor_backward,
        motor_run_of_nonneg _ _ _ _ (compute_time_nonneg _ _ hd)]
      simp [appliedSpeed, dirBits]
    · rw [move_motor_left,
        motor_run_of_nonneg _ _ _ _ (compute_time_nonneg _ _ hd)]
      simp [appliedSpeed, dirBits]
    · rw [move_motor_right,
        motor_run_of_nonneg _ _ _ _ (compute_time_nonneg _ _ hd)]
      simp [appliedSpeed, dirBits]

/-- C2 witness: `Drive(forward, distance=1, speed=0)` sleeps exactly 0. -/
theorem drive_delay_nonneg_witness :
    0 ≤ compute_time 1 (appliedSpeed "forward" 0) ∧
    compute_time 1 (appliedSpeed "forward" 0) = 0 ∧
    (move_motor "forward" 1 0).1 =
      [.setDir1 (dirBits "forward").1, .setDir2 (dirBits "forward").2,
       .setPwm1 ((appliedSpeed "forward" 0 : ℤ) : ℝ),
       .setPwm2 ((appliedSpeed "forward" 0 : ℤ) : ℝ),
       .sleep (compute_time 1 (appliedSpeed "forward" 0)),
       .setPwm1 0, .setPwm2 0] := by
  have h := drive_delay_nonneg "forward" 1 0 (Or.inl rfl) (by decide)
    (by decide) (by norm_num)
  exact ⟨h.1, h.2.1 (by decide), h.2.2⟩

/-- C3: turning commands halve the requested speed by integer floor
division before applying it, so the duty cycle written to both motors is at
most half the requested speed. -/
theorem turn_commands_half_speed (direction : String) (distance : ℝ)
    (speed : ℤ) (hdir : direction = "left" ∨ direction = "right")
    (hs0 : 0 ≤ speed) (hs1 : speed ≤ 100) :
    (move_motor direction distance speed).1.take 4 =
      [.setDir1 (dirBits direction).1, .setDir2 (dirBits direction).2,
       .setPwm1 ((Int.fdiv speed 2 : ℤ) : ℝ),
       .setPwm2 ((Int.fdiv speed 2 : ℤ) : ℝ)] ∧
    ((Int.fdiv speed 2 : ℤ) : ℝ) ≤ (speed : ℝ) / 2 := by
  refine ⟨?_, fdiv_two_le_half speed⟩
  rcases hdir with h | h <;> subst h
  · rw [move_motor_left]
    unfold motor_run
    dsimp only
    split <;> rfl
  · rw [move_motor_right]
    unfold motor_run
    dsimp only
    split <;> rfl

/-- C3 witness: `Drive(left, distance=1, speed=51)` applies duty cycle 25
to both motors. -/
theorem turn_commands_half_speed_witness :
    (move_motor "left" 1 51).1.take 4 =
      [.setDir1 (dirBits "left").1, .setDir2 (dirBits "left").2,
       .setPwm1 ((Int.fdiv 51 2 : ℤ) : ℝ),
       .setPwm2 ((Int.fdiv 51 2 : ℤ) : ℝ)] ∧
    ((Int.fdiv 51 2 : ℤ) : ℝ) ≤ ((51 : ℤ) : ℝ) / 2 :=
  turn_commands_half_speed "left" 1 51 (Or.inl rfl) (by decide) (by decide)

/-- C4: the direction bits are written per the fixed truth table: forward
both LOW, backward both HIGH, left DIR1 HIGH / DIR2 LOW, right DIR1 LOW /
DIR2 HIGH. -/
theorem drive_direction_truth_table (distance : ℝ) (speed : ℤ) :
    (move_motor "forward" distance speed).1.take 2 =
      [.setDir1 false, .setDir2 false] ∧
    (move_motor "backward" distance speed).1.take 2 =
      [.setDir1 true, .setDir2 true] ∧
    (move_motor "left" distance speed).1.take 2 =
      [.setDir1 true, .setDir2 false] ∧
    (move_motor "right" distance speed).1.take 2 =
      [.setDir1 false, .setDir2 true] := by
  refine ⟨?_, ?_, ?_, ?_⟩
  · rw [move_motor_forward]
    unfold motor_run
    dsimp only
    split <;> rfl
  · rw [move_motor_backward]
    unfold motor_run
    dsimp only
    split <;> rfl
  · rw [move_motor_left]
    unfold motor_run
    dsimp only
    split <;> rfl
  · rw [move_motor_right]
    unfold motor_run
    dsimp only
    split <;> rfl

/-- C9: with a valid direction, positive applied speed and negative
distance, the pydantic schema still accepts the request, the computed delay
is negative so the sleep raises, the caught exception yields the error
result, and the restore-to-zero writes are skipped: both motor duty cycles
are left at the applied (positive) speed. -/
theorem drive_negative_distance_keeps_motors_running (direction : String)
    (distance : ℝ) (speed : ℤ)
    (hdir : direction = "forward" ∨ direction = "backward" ∨
      direction = "left" ∨ direction = "right")
    (hs0 : 0 ≤ speed) (hs1 : speed ≤ 100)
    (ha : 0 < appliedSpeed direction speed) (hd : distance < 0) :
    MotorParams_accepts distance speed ∧
    move_motor direction distance speed =
      ([.setDir1 (dirBits direction).1, .setDir2 (dirBits direction).2,
        .setPwm1 ((appliedSpeed direction speed : ℤ) : ℝ),
        .setPwm2 ((appliedSpeed direction speed : ℤ) : ℝ)],
       .sleepError) ∧
    0 < ((appliedSpeed direction speed : ℤ) : ℝ) ∧
    ∀ s : GPIOState,
      (runEvents s (move_motor direction distance speed).1).pwm1Duty =
        ((appliedSpeed direction speed : ℤ) : ℝ) ∧
      (runEvents s (move_motor direction distance speed).1).pwm2Duty =
        ((appliedSpeed direction speed : ℤ) : ℝ) := by
  have heq : move_motor direction distance speed =
      ([.setDir1 (dirBits direction).1, .setDir2 (dirBits direction).2,
        .setPwm1 ((appliedSpeed direction speed : ℤ) : ℝ),
        .setPwm2 ((appliedSpeed direction speed : ℤ) : ℝ)],
       .sleepError) := by
    rcases hdir with h | h | h | h <;> subst h
    · have hpos : 0 < speed := by simpa [appliedSpeed] using ha
      rw [move_motor_forward,
        motor_run_of_neg _ _ _ _ (compute_time_neg _ _ hpos hd)]
      simp [appliedSpeed, dirBits]
    · have hpos : 0 < speed := by simpa [appliedSpeed] using ha
      rw [move_motor_backward,
        motor_run_of_neg _ _ _ _ (compute_time_neg _ _ hpos hd)]
      simp [appliedSpeed, dirBits]
    · have hpos : 0 < Int.fdiv speed 2 := by simpa [appliedSpeed] using ha
      rw [move_motor_left,
        motor_run_of_neg _ _ _ _ (compute_time_neg _ _ hpos hd)]
      simp [appliedSpeed, dirBits]
    · have hpos : 0 < Int.fdiv speed 2 := by simpa [appliedSpeed] using ha
      rw [move_motor_right,
        motor_run_of_neg _ _ _ _ (compute_time_neg _ _ hpos hd)]
      simp [appliedSpeed, dirBits]
  refine ⟨⟨hs0, hs1⟩, heq, by exact_mod_cast ha, fun s => ?_⟩
  rw [heq]
  exact ⟨rfl, rfl⟩

/-- C9 witness: `Drive(forward, distance=-1, speed=50)` errors out with
both motors left running at duty cycle 50. -/
theorem drive_negative_distance_keeps_motors_running_witness :
    MotorParams_accepts (-1) 50 ∧
    move_motor "forward" (-1) 50 =
      ([.setDir1 (dirBits "forward").1, .setDir2 (dirBits "forward").2,
        .setPwm1 ((appliedSpeed "forward" 50 : ℤ) : ℝ),
        .setPwm2 ((appliedSpeed "forward" 50 : ℤ) : ℝ)],
       .sleepError) ∧
    0 < ((appliedSpeed "forward" 50 : ℤ) : ℝ) ∧
    (runEvents initState (move_motor "forward" (-1) 50).1).pwm1Duty =
      ((appliedSpeed "forward" 50 : ℤ) : ℝ) ∧
    (runEvents initState (move_motor "forward" (-1) 50).1).pwm2Duty =
      ((appliedSpeed "forward" 50 : ℤ) : ℝ) := by
  have h := drive_negative_distance_keeps_motors_running "forward" (-1) 50
    (Or.inl rfl) (by decide) (by decide) (by decide) (by norm_num)
  exact ⟨h.1, h.2.1, h.2.2.1, (h.2.2.2 initState).1, (h.2.2.2 initState).2⟩

end
